import Mathlib

/-!
Verification of the remote-development session daemon and proxy
(`crates/remote_server/src/unix.rs`): PID registry, proxy launch/attach,
length-prefixed framing, the daemon accept-loop state machine, and the
binary garbage collector.
-/

set_option maxRecDepth 10000

namespace ZedRemote

/-! ## Framing codec

`write_size_prefixed_buffer` writes `buffer.len() as u32` as four
little-endian bytes followed by the buffer itself.  Bytes are modelled as
natural numbers (the encoder only ever produces header bytes `< 256`). -/

/-- Little-endian byte decomposition of `u32` values, as produced by Rust's
`u32::to_le_bytes`. -/
def u32ToLeBytes (n : Nat) : List Nat :=
  [n % 256, n / 256 % 256, n / 65536 % 256, n / 16777216 % 256]

/-- Reassemble a 4-byte little-endian header into the length it denotes. -/
def leU32 (l : List Nat) : Nat :=
  match l with
  | [a, b, c, d] => a + 256 * b + 65536 * c + 16777216 * d
  | _ => 0

/-- Model of `write_size_prefixed_buffer`: the payload length is cast to
`u32` (reduction modulo `2 ^ 32`), written as 4 little-endian bytes, then the
payload follows. -/
def write_size_prefixed_buffer (buffer : List Nat) : List Nat :=
  u32ToLeBytes (buffer.length % 2 ^ 32) ++ buffer

/-- Modelled from the spec: the decoder (`remote::protocol::read_message_raw`,
whose source is not under `src/`) reads exactly 4 header bytes, parses the
4-byte little-endian length, then reads exactly that many payload bytes,
failing (rather than returning a truncated payload) on short reads. -/
def read_message (s : List Nat) : Option (List Nat) :=
  match s with
  | a :: b :: c :: d :: rest =>
    let len := a + 256 * b + 65536 * c + 16777216 * d
    if len ≤ rest.length then some (rest.take len) else none
  | _ => none

/-! ## Decimal parsing and printing

`check_pid_file` parses the PID file contents with `str::parse::<u32>` and
`write_pid_file` stores `std::process::id().to_string()`.  We model the
decimal grammar of Rust's `u32: FromStr`: an optional leading `'+'`, then a
nonempty run of ASCII digits, value below `2 ^ 32`. -/

/-- The ASCII digit character for a value `d < 10`. -/
def digitChar (d : Nat) : Char := Char.ofNat (48 + d)

/-- Numeric value of an ASCII digit character. -/
def digitVal (c : Char) : Option Nat :=
  if 48 ≤ c.toNat ∧ c.toNat ≤ 57 then some (c.toNat - 48) else none

/-- Left-to-right accumulation of decimal digits. -/
def parseDigitsAux : List Char → Nat → Option Nat
  | [], acc => some acc
  | c :: rest, acc =>
    match digitVal c with
    | some d => parseDigitsAux rest (acc * 10 + d)
    | none => none

/-- Parse a nonempty run of decimal digits. -/
def parseDigitsList (l : List Char) : Option Nat :=
  match l with
  | [] => none
  | _ => parseDigitsAux l 0

/-- Drop one optional leading `'+'` sign (accepted by Rust's unsigned
integer `FromStr`). -/
def stripPlusSign : List Char → List Char
  | [] => []
  | c :: rest => if c = '+' then rest else c :: rest

/-- Model of `contents.parse::<u32>().ok()`. -/
def parseU32 (s : String) : Option Nat :=
  match parseDigitsList (stripPlusSign s.data) with
  | some n => if n < 2 ^ 32 then some n else none
  | none => none

/-- Decimal digit list of `n`, most significant first, with explicit fuel so
that the definition is structurally recursive (kernel-reducible).  `fuel > n`
suffices. -/
def natDigitsAux : Nat → Nat → List Char
  | 0, _ => []
  | fuel + 1, n =>
    if n < 10 then [digitChar n]
    else natDigitsAux fuel (n / 10) ++ [digitChar (n % 10)]

/-- Decimal digit list of `n`, most significant first. -/
def natDigits (n : Nat) : List Char := natDigitsAux (n + 1) n

/-- Model of Rust's `u32::to_string` for process ids. -/
def natToString (n : Nat) : String := String.mk (natDigits n)

/-! ## Filesystem and process model

The proxy launch path (`execute_proxy`, `check_pid_file`,
`kill_running_server`, `spawn_server`, `write_pid_file`) manipulates a small
number of OS resources: files keyed by path, the set of live process ids
(probed via `kill -0`), termination signals (`kill <pid>`), and daemon
spawns.  We model them as explicit state. -/

/-- A filesystem fragment: an association list from path to contents. -/
abbrev Fs : Type := List (String × String)

/-- Read a file (`None` when absent). -/
def fsLookup (fs : Fs) (p : String) : Option String :=
  (fs.find? (fun kv => kv.1 == p)).map Prod.snd

/-- Remove a file; removing an absent file is a no-op (`remove_file(..).ok()`
semantics). -/
def fsRemove (fs : Fs) (p : String) : Fs :=
  fs.filter (fun kv => kv.1 != p)

/-- Write a file, replacing any previous contents. -/
def fsWrite (fs : Fs) (p c : String) : Fs :=
  (p, c) :: fsRemove fs p

/-- The per-session paths derived from the session identifier
(`ServerPaths::new`). -/
structure ServerPaths where
  log_file : String
  pid_file : String
  stdin_socket : String
  stdout_socket : String
  stderr_socket : String

/-- Observable system state threaded through the proxy launch path:
the filesystem, the set of live PIDs (those for which the `kill -0` probe
succeeds), the log of termination signals sent, the log of liveness probes
performed, the number of daemon cores spawned, and the PID the OS will
assign to the next spawned process. -/
structure SysState where
  files : Fs
  live : List Nat
  kills : List Nat
  probes : List Nat
  spawned : Nat
  nextPid : Nat

/-- Model of `check_pid_file`: read the PID file; when absent, unreadable or
unparseable, report no server.  Otherwise probe the parsed PID with
`kill -0`: on success report it, on failure remove the stale PID file and
report no server. -/
def check_pid_file (path : String) (s : SysState) : SysState × Option Nat :=
  match (fsLookup s.files path).bind (fun contents => parseU32 contents) with
  | none => (s, none)
  | some pid =>
    let s1 : SysState := { s with probes := pid :: s.probes }
    if s1.live.contains pid then (s1, some pid)
    else ({ s1 with files := fsRemove s1.files path }, none)

/-- Model of `write_pid_file`: remove any pre-existing file, then write the
process id in decimal. -/
def write_pid_file (path : String) (pid : Nat) (fs : Fs) : Fs :=
  fsWrite (fsRemove fs path) path (natToString pid)

/-- Model of `kill_running_server`: send a termination signal to `pid`, then
remove the PID file and the three rendezvous socket files, ignoring
already-absent errors. -/
def kill_running_server (pid : Nat) (paths : ServerPaths) (s : SysState) : SysState :=
  { s with
    kills := pid :: s.kills,
    files :=
      fsRemove
        (fsRemove
          (fsRemove (fsRemove s.files paths.pid_file) paths.stdin_socket)
          paths.stdout_socket)
        paths.stderr_socket }

/-- Model of `spawn_server`: remove leftover socket files, then launch one
detached daemon core.  The daemon's startup (`execute_run`) writes its own
PID file and then binds the three rendezvous sockets; `spawn_server` polls
until all three socket paths exist, so by the time it returns the new core
is live, its PID file is written and the sockets are present. -/
def spawn_server (paths : ServerPaths) (s : SysState) : SysState :=
  let files0 :=
    fsRemove (fsRemove (fsRemove s.files paths.stdin_socket) paths.stdout_socket)
      paths.stderr_socket
  let pid := s.nextPid
  let files1 := write_pid_file paths.pid_file pid files0
  let files2 :=
    fsWrite (fsWrite (fsWrite files1 paths.stdin_socket "") paths.stdout_socket "")
      paths.stderr_socket ""
  { files := files2
    live := pid :: s.live
    kills := s.kills
    probes := s.probes
    spawned := s.spawned + 1
    nextPid := s.nextPid + 1 }

/-- The distinct launch error raised when reconnecting to a dead session
(`remote::proxy::ProxyLaunchError`). -/
inductive ProxyLaunchError where
  | ServerNotRunning
deriving DecidableEq

/-- Model of the launch phase of `execute_proxy` (steps before connecting to
the sockets): consult the PID registry; when reconnecting to a dead session
fail with `ServerNotRunning`; otherwise kill any live server and spawn a
fresh one.  Returns the resulting state and the error, if any. -/
def execute_proxy (paths : ServerPaths) (is_reconnecting : Bool) (s : SysState) :
    SysState × Option ProxyLaunchError :=
  let res := check_pid_file paths.pid_file s
  if is_reconnecting then
    match res.2 with
    | none => (res.1, some ProxyLaunchError.ServerNotRunning)
    | some _ => (res.1, none)
  else
    match res.2 with
    | some pid => (spawn_server paths (kill_running_server pid paths res.1), none)
    | none => (spawn_server paths res.1, none)

/-! ## Binary garbage collector -/

/-- Modelled from the spec: `gpui::SemanticVersion` (not under `src/`) is a
semantic version `major.minor.patch` with lexicographic order. -/
structure SemanticVersion where
  major : Nat
  minor : Nat
  patch : Nat
deriving DecidableEq

/-- Lexicographic `≤` on semantic versions (Rust's derived `Ord`). -/
def semverLe (a b : SemanticVersion) : Bool :=
  if a.major ≠ b.major then decide (a.major < b.major)
  else if a.minor ≠ b.minor then decide (a.minor < b.minor)
  else decide (a.patch ≤ b.patch)

/-- Split a character list at every `'.'` (structural stand-in for
`str::split('.')`). -/
def splitOnDot : List Char → List (List Char)
  | [] => [[]]
  | c :: rest =>
    if c = '.' then [] :: splitOnDot rest
    else
      match splitOnDot rest with
      | h :: t => (c :: h) :: t
      | [] => [[c]]

/-- Modelled from the spec: `SemanticVersion::from_str` (not under `src/`)
parses three dot-separated decimal components `major.minor.patch`. -/
def parseSemVer (s : String) : Option SemanticVersion :=
  match splitOnDot s.data with
  | [a, b, c] =>
    match parseDigitsList a, parseDigitsList b, parseDigitsList c with
    | some x, some y, some z => some ⟨x, y, z⟩
    | _, _, _ => none
  | _ => none

/-- Strip a literal string from the front of another
(`str::strip_prefix`). -/
def stripPrefixOf (pre s : String) : Option String :=
  if pre.data.isPrefixOf s.data then some (String.mk (s.data.drop pre.data.length))
  else none

/-- Model of `is_new_version`: both the embedded and the running version must
parse, and the embedded one must be greater than or equal to the running
one. -/
def is_new_version (version : String) (current : String) : Bool :=
  match parseSemVer version, parseSemVer current with
  | some v, some c => semverLe c v
  | _, _ => false

/-- One directory entry of the daemon install directory as seen by
`cleanup_old_binaries`: its file name, the result of the
`is_file_in_use` process-table probe, the result of the
`is_symlinked_to_nix_store` symlink probe, and whether
`std::fs::remove_file` would succeed on it. -/
structure BinEntry where
  name : String
  inUse : Bool
  nixStore : Bool
  removeOk : Bool
deriving DecidableEq

/-- The deletion condition of `cleanup_old_binaries` for one entry: the name
has the expected prefix, and the embedded version is neither new, in use,
nor a symlink into the nix store. -/
def shouldDelete (pre current : String) (e : BinEntry) : Bool :=
  match stripPrefixOf pre e.name with
  | some version => !is_new_version version current && !e.inUse && !e.nixStore
  | none => false

/-- Model of `cleanup_old_binaries`: scan the directory entries in order,
deleting every entry that meets the deletion condition.  A failing
`remove_file` propagates with `?`, ending the scan.  Returns the names
actually deleted and the error, if any. -/
def cleanup_old_binaries (pre current : String) :
    List BinEntry → List String × Option String
  | [] => ([], none)
  | e :: rest =>
    if shouldDelete pre current e then
      if e.removeOk then
        let r := cleanup_old_binaries pre current rest
        (e.name :: r.1, r.2)
      else ([], some e.name)
    else cleanup_old_binaries pre current rest

/-! ## Daemon core state machine

`start_server` runs an outer accept loop (AwaitingConnection) racing a fresh
idle timer, the app-quit signal and the arrival of a full connection triple,
and an inner pump loop (Active) moving envelopes between the internal
channels and the sockets.  We model it as a step function over an explicit
state, with timestamped events.  Times are in seconds. -/

/-- An application message; the core treats it as opaque. -/
abbrev Envelope : Type := Nat

/-- The idle timeout of `start_server` (`Duration::from_secs(10 * 60)`). -/
def IDLE_TIMEOUT : Nat := 600

/-- Phases of the daemon core: awaiting a connection triple since some
instant (a fresh idle timer is armed at that instant), actively pumping a
triple, or terminating (with a flag recording whether shutdown of the
hosting process was explicitly requested, as on the idle-timeout path). -/
inductive Phase where
  | awaitingConnection (idleSince : Nat)
  | active
  | terminating (shutdownRequested : Bool)
deriving DecidableEq

/-- State of the daemon core: its phase, the internal outbound channel
contents (oldest first), the envelopes written to the output socket so far,
and whether the idle-timeout warning has been logged. -/
structure CoreState where
  phase : Phase
  outbound : List Envelope
  delivered : List Envelope
  warnedIdle : Bool
deriving DecidableEq

/-- Events the daemon core reacts to.  `enqueue` is the hosted application
pushing an outbound envelope; `tripleArrived` is all three listeners
yielding a connection; `idleElapsed` is the idle timer firing at time `t`
(only effective once the timer armed on entering AwaitingConnection has run
for the full window); `deliver` is the write loop taking the head outbound
envelope and writing it (`ok` = the socket write succeeded);
`connectionError` is an I/O error on any connection of the triple. -/
inductive CoreEvent where
  | enqueue (e : Envelope)
  | tripleArrived (t : Nat)
  | idleElapsed (t : Nat)
  | appQuit
  | deliver (t : Nat) (ok : Bool)
  | connectionError (t : Nat)

/-- One step of the daemon core.  Events that are not enabled in the current
phase leave the state unchanged. -/
def step (s : CoreState) (ev : CoreEvent) : CoreState :=
  match ev with
  | .enqueue e => { s with outbound := s.outbound ++ [e] }
  | .tripleArrived _ =>
    match s.phase with
    | .awaitingConnection _ => { s with phase := .active }
    | _ => s
  | .idleElapsed t =>
    match s.phase with
    | .awaitingConnection since =>
      if since + IDLE_TIMEOUT ≤ t then
        { s with phase := .terminating true, warnedIdle := true }
      else s
    | _ => s
  | .appQuit =>
    match s.phase with
    | .terminating _ => s
    | _ => { s with phase := .terminating false }
  | .deliver t ok =>
    match s.phase, s.outbound with
    | .active, e :: rest =>
      if ok then { s with outbound := rest, delivered := s.delivered ++ [e] }
      else { s with outbound := rest, phase := .awaitingConnection t }
    | _, _ => s
  | .connectionError t =>
    match s.phase with
    | .active => { s with phase := .awaitingConnection t }
    | _ => s

/-- Run the core over a sequence of events. -/
def run (s : CoreState) (evs : List CoreEvent) : CoreState :=
  evs.foldl step s

end ZedRemote

namespace ZedRemote

/-! ### Round-trip lemmas for the decimal codec -/

theorem digitVal_digitChar {d : Nat} (h : d < 10) : digitVal (digitChar d) = some d := by
  interval_cases d <;> decide

theorem digitChar_ne_plus {d : Nat} (h : d < 10) : digitChar d ≠ '+' := by
  interval_cases d <;> decide

theorem parseDigitsAux_append (l₁ l₂ : List Char) (acc : Nat) :
    parseDigitsAux (l₁ ++ l₂) acc =
      (parseDigitsAux l₁ acc).bind (fun a => parseDigitsAux l₂ a) := by
  induction l₁ generalizing acc with
  | nil => rfl
  | cons c rest ih =>
    simp only [List.cons_append, parseDigitsAux]
    cases digitVal c with
    | none => rfl
    | some d => exact ih _

theorem natDigitsAux_spec (fuel : Nat) :
    ∀ n acc, n < fuel →
      parseDigitsAux (natDigitsAux fuel n) acc =
        some (acc * 10 ^ (natDigitsAux fuel n).length + n) := by
  induction fuel with
  | zero => intro n acc h; omega
  | succ fuel ih =>
    intro n acc h
    by_cases h10 : n < 10
    · simp only [natDigitsAux, if_pos h10, parseDigitsAux, digitVal_digitChar h10,
        List.length_singleton, pow_one, Option.some.injEq]
    · have hdiv : n / 10 < n := Nat.div_lt_self (by omega) (by omega)
      have hfuel : n / 10 < fuel := by omega
      have hmod : n % 10 < 10 := Nat.mod_lt n (by omega)
      simp only [natDigitsAux, if_neg h10, parseDigitsAux_append, ih (n / 10) acc hfuel,
        Option.bind, parseDigitsAux, digitVal_digitChar hmod,
        List.length_append, List.length_singleton, pow_succ, Option.some.injEq]
      have hdm : 10 * (n / 10) + n % 10 = n := Nat.div_add_mod n 10
      have hassoc : acc * (10 ^ (natDigitsAux fuel (n / 10)).length * 10) =
          acc * 10 ^ (natDigitsAux fuel (n / 10)).length * 10 := by ring
      rw [hassoc]
      generalize acc * 10 ^ (natDigitsAux fuel (n / 10)).length = p
      omega

theorem natDigitsAux_head (fuel : Nat) :
    ∀ n, n < fuel → ∃ d t, d < 10 ∧ natDigitsAux fuel n = digitChar d :: t := by
  induction fuel with
  | zero => intro n h; omega
  | succ fuel ih =>
    intro n h
    by_cases h10 : n < 10
    · exact ⟨n, [], h10, by simp [natDigitsAux, h10]⟩
    · have hdiv : n / 10 < n := Nat.div_lt_self (by omega) (by omega)
      obtain ⟨d, t, hd, ht⟩ := ih (n / 10) (by omega)
      exact ⟨d, t ++ [digitChar (n % 10)], hd, by simp [natDigitsAux, h10, ht]⟩

theorem parseU32_natToString {n : Nat} (h : n < 2 ^ 32) :
    parseU32 (natToString n) = some n := by
  obtain ⟨d, t, hd, ht⟩ := natDigitsAux_head (n + 1) n (by omega)
  have hspec := natDigitsAux_spec (n + 1) n 0 (by omega)
  simp only [parseU32, natToString, natDigits, ht] at *
  simp only [stripPlusSign, if_neg (digitChar_ne_plus hd), parseDigitsList, hspec]
  simp only [Nat.zero_mul, Nat.zero_add]
  rw [if_pos h]

/-! ### Association-list filesystem lemmas -/

theorem fsLookup_cons (kv : String × String) (rest : Fs) (q : String) :
    fsLookup (kv :: rest) q = if kv.1 = q then some kv.2 else fsLookup rest q := by
  by_cases h : kv.1 = q
  · simp [fsLookup, List.find?, h]
  · have hb : (kv.1 == q) = false := by simp [h]
    simp [fsLookup, List.find?, hb, h]

theorem fsRemove_cons (kv : String × String) (rest : Fs) (p : String) :
    fsRemove (kv :: rest) p =
      if kv.1 = p then fsRemove rest p else kv :: fsRemove rest p := by
  by_cases h : kv.1 = p
  · simp [fsRemove, List.filter_cons, h]
  · simp [fsRemove, List.filter_cons, h]

theorem fsLookup_remove (fs : Fs) (p q : String) :
    fsLookup (fsRemove fs p) q = if q = p then none else fsLookup fs q := by
  induction fs with
  | nil => by_cases h : q = p <;> simp [fsRemove, fsLookup, List.filter, h]
  | cons kv rest ih =>
    rw [fsRemove_cons]
    by_cases hp : kv.1 = p
    · rw [if_pos hp, ih, fsLookup_cons]
      by_cases hq : q = p
      · rw [if_pos hq, if_pos hq]
      · rw [if_neg hq, if_neg hq, if_neg (by rw [hp]; exact fun hh => hq hh.symm)]
    · rw [if_neg hp, fsLookup_cons, fsLookup_cons]
      by_cases hk : kv.1 = q
      · rw [if_pos hk, if_neg (by rw [← hk]; exact hp), if_pos hk]
      · rw [if_neg hk, if_neg hk, ih]

theorem fsLookup_write (fs : Fs) (p c q : String) :
    fsLookup (fsWrite fs p c) q = if q = p then some c else fsLookup fs q := by
  rw [fsWrite, fsLookup_cons]
  by_cases h : q = p
  · rw [if_pos h.symm, if_pos h]
  · rw [if_neg (fun hh => h hh.symm), if_neg h, fsLookup_remove, if_neg h]

theorem check_pid_file_spawned (path : String) (s : SysState) :
    (check_pid_file path s).1.spawned = s.spawned := by
  rcases hE : (fsLookup s.files path).bind (fun contents => parseU32 contents) with _ | pid
  · simp [check_pid_file, hE]
  · simp only [check_pid_file, hE]
    split <;> rfl

/-! ### Claim theorems: PID registry and proxy launch -/

/-- C1: for every session, calling the proxy entry point with
`is_reconnecting = true` when the PID registry reports no live daemon core
fails immediately with the distinct `ProxyLaunchError::ServerNotRunning`
error and performs no spawn of a new daemon core. -/
theorem C1_reconnection_guard (paths : ServerPaths) (s : SysState)
    (h : (check_pid_file paths.pid_file s).2 = none) :
    execute_proxy paths true s =
      ((check_pid_file paths.pid_file s).1, some ProxyLaunchError.ServerNotRunning) ∧
    (execute_proxy paths true s).1.spawned = s.spawned := by
  have hsp := check_pid_file_spawned paths.pid_file s
  constructor
  · simp [execute_proxy, h]
  · simp [execute_proxy, h, hsp]

theorem C1_witness :
    (check_pid_file (ServerPaths.mk "log" "pid" "in" "out" "err").pid_file
        ⟨[], [], [], [], 0, 1⟩).2 = none ∧
    execute_proxy (ServerPaths.mk "log" "pid" "in" "out" "err") true ⟨[], [], [], [], 0, 1⟩ =
      ((check_pid_file (ServerPaths.mk "log" "pid" "in" "out" "err").pid_file
          ⟨[], [], [], [], 0, 1⟩).1,
        some ProxyLaunchError.ServerNotRunning) ∧
    (execute_proxy (ServerPaths.mk "log" "pid" "in" "out" "err") true
        ⟨[], [], [], [], 0, 1⟩).1.spawned = 0 :=
  ⟨by decide,
    (C1_reconnection_guard _ _ (by decide)).1,
    (C1_reconnection_guard _ _ (by decide)).2⟩

/-- C2: for every PID-file path, if the file is absent `check_pid_file`
returns none; if the file is present and names a process whose liveness
probe fails, it deletes the PID file and returns none; if the probe
succeeds, it returns the PID read from the file. -/
theorem C2_check_pid_file :
    (∀ (path : String) (s : SysState), fsLookup s.files path = none →
      check_pid_file path s = (s, none)) ∧
    (∀ (path : String) (s : SysState) (c : String) (pid : Nat),
      fsLookup s.files path = some c → parseU32 c = some pid → pid ∉ s.live →
      (check_pid_file path s).2 = none ∧
      fsLookup (check_pid_file path s).1.files path = none) ∧
    (∀ (path : String) (s : SysState) (c : String) (pid : Nat),
      fsLookup s.files path = some c → parseU32 c = some pid → pid ∈ s.live →
      check_pid_file path s = ({ s with probes := pid :: s.probes }, some pid)) := by
  refine ⟨?_, ?_, ?_⟩
  · intro path s h
    simp [check_pid_file, h]
  · intro path s c pid h1 h2 h3
    simp [check_pid_file, h1, h2, h3, Option.bind, fsLookup_remove]
  · intro path s c pid h1 h2 h3
    simp [check_pid_file, h1, h2, h3, Option.bind]

theorem C2_witness :
    check_pid_file "p" ⟨[], [], [], [], 0, 1⟩ = (⟨[], [], [], [], 0, 1⟩, none) ∧
    ((check_pid_file "p" ⟨[("p", "42")], [], [], [], 0, 1⟩).2 = none ∧
      fsLookup (check_pid_file "p" ⟨[("p", "42")], [], [], [], 0, 1⟩).1.files "p" = none) ∧
    check_pid_file "p" ⟨[("p", "7")], [7], [], [], 0, 1⟩ =
      ({ files := [("p", "7")], live := [7], kills := [], probes := [7],
         spawned := 0, nextPid := 1 }, some 7) :=
  ⟨C2_check_pid_file.1 "p" _ (by decide),
    C2_check_pid_file.2.1 "p" _ "42" 42 (by decide) (by decide) (by decide),
    C2_check_pid_file.2.2 "p" _ "7" 7 (by decide) (by decide) (by decide)⟩

/-- C9: if the PID file exists but its contents do not parse as a decimal
unsigned integer, `check_pid_file` returns none with the state untouched:
the file is not deleted and no process is probed. -/
theorem C9_unparseable_pid_file (path : String) (s : SysState) (c : String)
    (h1 : fsLookup s.files path = some c) (h2 : parseU32 c = none) :
    check_pid_file path s = (s, none) := by
  simp [check_pid_file, h1, h2, Option.bind]

theorem C9_witness :
    fsLookup ([("p", "oops")] : Fs) "p" = some "oops" ∧ parseU32 "oops" = none ∧
    check_pid_file "p" ⟨[("p", "oops")], [4], [], [], 0, 1⟩ =
      (⟨[("p", "oops")], [4], [], [], 0, 1⟩, none) :=
  ⟨by decide, by decide, C9_unparseable_pid_file "p" _ "oops" (by decide) (by decide)⟩

/-- C3: calling the proxy entry point with `is_reconnecting = false` on a
session whose PID registry reports a live daemon core sends a termination
signal to that PID, removes the PID file and all three rendezvous socket
files (ignoring already-absent errors), then spawns exactly one new daemon
core, after which `check_pid_file` reports the new core's PID, not the old
one's. -/
theorem C3_single_owner_replace (paths : ServerPaths) (s : SysState) (c : String) (pid : Nat)
    (hfile : fsLookup s.files paths.pid_file = some c)
    (hparse : parseU32 c = some pid)
    (hlive : pid ∈ s.live)
    (hfresh : s.nextPid ∉ s.live)
    (hbound : s.nextPid < 2 ^ 32)
    (hd1 : paths.pid_file ≠ paths.stdin_socket)
    (hd2 : paths.pid_file ≠ paths.stdout_socket)
    (hd3 : paths.pid_file ≠ paths.stderr_socket) :
    (execute_proxy paths false s).2 = none ∧
    pid ∈ (execute_proxy paths false s).1.kills ∧
    (fsLookup (kill_running_server pid paths
        (check_pid_file paths.pid_file s).1).files paths.pid_file = none ∧
      fsLookup (kill_running_server pid paths
        (check_pid_file paths.pid_file s).1).files paths.stdin_socket = none ∧
      fsLookup (kill_running_server pid paths
        (check_pid_file paths.pid_file s).1).files paths.stdout_socket = none ∧
      fsLookup (kill_running_server pid paths
        (check_pid_file paths.pid_file s).1).files paths.stderr_socket = none) ∧
    (execute_proxy paths false s).1.spawned = s.spawned + 1 ∧
    (check_pid_file paths.pid_file (execute_proxy paths false s).1).2 = some s.nextPid ∧
    s.nextPid ≠ pid := by
  have hcheck : check_pid_file paths.pid_file s =
      ({ s with probes := pid :: s.probes }, some pid) := by
    simp [check_pid_file, hfile, hparse, hlive, Option.bind]
  have hexec : execute_proxy paths false s =
      (spawn_server paths (kill_running_server pid paths
        ({ s with probes := pid :: s.probes } : SysState)), none) := by
    simp [execute_proxy, hcheck]
  have hne : s.nextPid ≠ pid := fun hh => hfresh (hh ▸ hlive)
  refine ⟨by rw [hexec], ?_, ?_, ?_, ?_, hne⟩
  · rw [hexec]
    simp [spawn_server, kill_running_server]
  · rw [hcheck]
    refine ⟨?_, ?_, ?_, ?_⟩ <;>
      · simp only [kill_running_server, fsLookup_remove]
        split_ifs <;> simp_all
  · rw [hexec]
    simp [spawn_server, kill_running_server]
  · rw [hexec]
    have hlook : fsLookup (spawn_server paths (kill_running_server pid paths
        ({ s with probes := pid :: s.probes } : SysState))).files paths.pid_file =
        some (natToString s.nextPid) := by
      simp [spawn_server, write_pid_file, kill_running_server, fsLookup_write,
        fsLookup_remove, hd1, hd2, hd3]
    have hmem : s.nextPid ∈ (spawn_server paths (kill_running_server pid paths
        ({ s with probes := pid :: s.probes } : SysState))).live := by
      simp [spawn_server, kill_running_server]
    simp only [check_pid_file, hlook, Option.bind, parseU32_natToString hbound]
    simp [hmem]

theorem C3_witness :
    (execute_proxy ⟨"log", "pidf", "in", "out", "err"⟩ false
        ⟨[("pidf", "9")], [9], [], [], 5, 10⟩).2 = none ∧
    9 ∈ (execute_proxy ⟨"log", "pidf", "in", "out", "err"⟩ false
        ⟨[("pidf", "9")], [9], [], [], 5, 10⟩).1.kills ∧
    (fsLookup (kill_running_server 9 ⟨"log", "pidf", "in", "out", "err"⟩
        (check_pid_file "pidf" ⟨[("pidf", "9")], [9], [], [], 5, 10⟩).1).files "pidf" = none ∧
      fsLookup (kill_running_server 9 ⟨"log", "pidf", "in", "out", "err"⟩
        (check_pid_file "pidf" ⟨[("pidf", "9")], [9], [], [], 5, 10⟩).1).files "in" = none ∧
      fsLookup (kill_running_server 9 ⟨"log", "pidf", "in", "out", "err"⟩
        (check_pid_file "pidf" ⟨[("pidf", "9")], [9], [], [], 5, 10⟩).1).files "out" = none ∧
      fsLookup (kill_running_server 9 ⟨"log", "pidf", "in", "out", "err"⟩
        (check_pid_file "pidf" ⟨[("pidf", "9")], [9], [], [], 5, 10⟩).1).files "err" = none) ∧
    (execute_proxy ⟨"log", "pidf", "in", "out", "err"⟩ false
        ⟨[("pidf", "9")], [9], [], [], 5, 10⟩).1.spawned = 5 + 1 ∧
    (check_pid_file "pidf" (execute_proxy ⟨"log", "pidf", "in", "out", "err"⟩ false
        ⟨[("pidf", "9")], [9], [], [], 5, 10⟩).1).2 = some 10 ∧
    (10 : Nat) ≠ 9 :=
  C3_single_owner_replace ⟨"log", "pidf", "in", "out", "err"⟩
    ⟨[("pidf", "9")], [9], [], [], 5, 10⟩ "9" 9
    (by decide) (by decide) (by decide) (by decide) (by decide)
    (by decide) (by decide) (by decide)

/-! ### Claim theorems: binary garbage collector -/

theorem stripPrefixOf_append (pre vs : String) :
    stripPrefixOf pre (pre ++ vs) = some vs := by
  cases vs with
  | mk l =>
    have hdata : (pre ++ String.mk l).data = pre.data ++ l := rfl
    simp [stripPrefixOf, hdata, List.isPrefixOf_iff_prefix, List.prefix_append,
      List.drop_left]

theorem cleanup_ok (pre cur : String) (es : List BinEntry)
    (hok : ∀ x ∈ es, x.removeOk = true) :
    cleanup_old_binaries pre cur es =
      ((es.filter (fun e => shouldDelete pre cur e)).map BinEntry.name, none) := by
  induction es with
  | nil => rfl
  | cons e rest ih =>
    have he := hok e (List.mem_cons_self e rest)
    have hrest : ∀ x ∈ rest, x.removeOk = true :=
      fun x hx => hok x (List.mem_cons_of_mem e hx)
    by_cases hd : shouldDelete pre cur e = true
    · simp [cleanup_old_binaries, hd, he, ih hrest, List.filter_cons]
    · simp [cleanup_old_binaries, hd, ih hrest, List.filter_cons]

/-- C4: among candidate files in the daemon install directory named with the
expected prefix plus an embedded version, the garbage collector deletes a
candidate if and only if its embedded version is not greater than or equal
to the running version, no live process has it as its executable image, and
it is not a symlink into the nix store; in particular a binary whose version
is greater than or equal to the running version is never deleted. -/
theorem C4_gc_version_guard (pre cur vs : String) (v c : SemanticVersion)
    (es : List BinEntry) (e : BinEntry)
    (hmem : e ∈ es) (hname : e.name = pre ++ vs)
    (hv : parseSemVer vs = some v) (hc : parseSemVer cur = some c)
    (hok : ∀ x ∈ es, x.removeOk = true)
    (hnd : (es.map BinEntry.name).Nodup) :
    (cleanup_old_binaries pre cur es).2 = none ∧
    (e.name ∈ (cleanup_old_binaries pre cur es).1 ↔
      semverLe c v = false ∧ e.inUse = false ∧ e.nixStore = false) ∧
    (semverLe c v = true → e.name ∉ (cleanup_old_binaries pre cur es).1) := by
  rw [cleanup_ok pre cur es hok]
  have hsd : shouldDelete pre cur e = (!semverLe c v && !e.inUse && !e.nixStore) := by
    simp [shouldDelete, hname, stripPrefixOf_append, is_new_version, hv, hc]
  have hiff : e.name ∈ ((es.filter (fun x => shouldDelete pre cur x)).map BinEntry.name) ↔
      semverLe c v = false ∧ e.inUse = false ∧ e.nixStore = false := by
    constructor
    · intro hin
      obtain ⟨x, hx, hxe⟩ := List.mem_map.mp hin
      obtain ⟨hxmem, hxdel⟩ := List.mem_filter.mp hx
      have hxeq : x = e := List.inj_on_of_nodup_map hnd hxmem hmem hxe
      subst hxeq
      rw [hsd] at hxdel
      simp only [Bool.and_eq_true, Bool.not_eq_true'] at hxdel
      exact ⟨hxdel.1.1, hxdel.1.2, hxdel.2⟩
    · intro ⟨h1, h2, h3⟩
      refine List.mem_map.mpr ⟨e, List.mem_filter.mpr ⟨hmem, ?_⟩, rfl⟩
      rw [hsd, h1, h2, h3]
      rfl
  refine ⟨rfl, hiff, ?_⟩
  intro hge hin
  have hfalse := (hiff.mp hin).1
  rw [hge] at hfalse
  exact Bool.noConfusion hfalse

theorem C4_witness :
    ("zed-remote-server-stable-" ++ "1.0.0") ∈
      (cleanup_old_binaries "zed-remote-server-stable-" "2.0.0"
        [⟨"zed-remote-server-stable-" ++ "1.0.0", false, false, true⟩,
         ⟨"zed-remote-server-stable-" ++ "2.0.0", false, false, true⟩]).1 ∧
    ("zed-remote-server-stable-" ++ "2.0.0") ∉
      (cleanup_old_binaries "zed-remote-server-stable-" "2.0.0"
        [⟨"zed-remote-server-stable-" ++ "1.0.0", false, false, true⟩,
         ⟨"zed-remote-server-stable-" ++ "2.0.0", false, false, true⟩]).1 :=
  ⟨(C4_gc_version_guard "zed-remote-server-stable-" "2.0.0" "1.0.0" ⟨1, 0, 0⟩ ⟨2, 0, 0⟩
      [⟨"zed-remote-server-stable-" ++ "1.0.0", false, false, true⟩,
       ⟨"zed-remote-server-stable-" ++ "2.0.0", false, false, true⟩]
      ⟨"zed-remote-server-stable-" ++ "1.0.0", false, false, true⟩
      (by decide) rfl (by decide) (by decide)
      (by decide) (by decide)).2.1.mpr ⟨by decide, rfl, rfl⟩,
   (C4_gc_version_guard "zed-remote-server-stable-" "2.0.0" "2.0.0" ⟨2, 0, 0⟩ ⟨2, 0, 0⟩
      [⟨"zed-remote-server-stable-" ++ "1.0.0", false, false, true⟩,
       ⟨"zed-remote-server-stable-" ++ "2.0.0", false, false, true⟩]
      ⟨"zed-remote-server-stable-" ++ "2.0.0", false, false, true⟩
      (by decide) rfl (by decide) (by decide)
      (by decide) (by decide)).2.2 (by decide)⟩

/-- C5 counterexample: with two deletable candidates where deleting the
first fails, the scan aborts — the second candidate meets the deletion
conditions yet nothing is deleted, and the delete error (not a
directory-enumeration error) is the scan's failure. -/
theorem C5_counterexample :
    cleanup_old_binaries "zed-remote-server-stable-" "2.0.0"
        [⟨"zed-remote-server-stable-" ++ "1.0.0", false, false, false⟩,
         ⟨"zed-remote-server-stable-" ++ "0.9.0", false, false, true⟩] =
      ([], some ("zed-remote-server-stable-" ++ "1.0.0")) ∧
    shouldDelete "zed-remote-server-stable-" "2.0.0"
        ⟨"zed-remote-server-stable-" ++ "0.9.0", false, false, true⟩ = true := by
  decide

/-- C5 (amended): an error deleting one individual candidate aborts the
scan — only candidates before the failing one are deleted, candidates after
it are never examined (the result does not depend on them), and the delete
error is propagated as the scan's failure. -/
theorem C5_amended_scan_aborts (pre cur : String) (es1 es2 : List BinEntry) (e : BinEntry)
    (h1 : ∀ x ∈ es1, x.removeOk = true)
    (h2 : shouldDelete pre cur e = true) (h3 : e.removeOk = false) :
    cleanup_old_binaries pre cur (es1 ++ e :: es2) =
      ((es1.filter (fun x => shouldDelete pre cur x)).map BinEntry.name, some e.name) := by
  induction es1 with
  | nil => simp [cleanup_old_binaries, h2, h3]
  | cons a rest ih =>
    have ha := h1 a (List.mem_cons_self a rest)
    have hrest : ∀ x ∈ rest, x.removeOk = true :=
      fun x hx => h1 x (List.mem_cons_of_mem a hx)
    by_cases hd : shouldDelete pre cur a = true
    · simp [cleanup_old_binaries, hd, ha, ih hrest, List.filter_cons]
    · simp [cleanup_old_binaries, hd, ih hrest, List.filter_cons]

theorem C5_amended_witness :
    cleanup_old_binaries "zed-remote-server-stable-" "2.0.0"
        ([⟨"zed-remote-server-stable-" ++ "0.8.0", false, false, true⟩] ++
          ⟨"zed-remote-server-stable-" ++ "1.0.0", false, false, false⟩ ::
            [⟨"zed-remote-server-stable-" ++ "0.9.0", false, false, true⟩]) =
      ([("zed-remote-server-stable-" ++ "0.8.0" : String)],
        some ("zed-remote-server-stable-" ++ "1.0.0")) :=
  (C5_amended_scan_aborts "zed-remote-server-stable-" "2.0.0"
      [⟨"zed-remote-server-stable-" ++ "0.8.0", false, false, true⟩]
      [⟨"zed-remote-server-stable-" ++ "0.9.0", false, false, true⟩]
      ⟨"zed-remote-server-stable-" ++ "1.0.0", false, false, false⟩
      (by decide) (by decide) (by decide)).trans (by decide)

/-! ### Claim theorems: framing codec -/

theorem leU32_u32ToLeBytes {m : Nat} (h : m < 2 ^ 32) :
    leU32 (u32ToLeBytes m) = m := by
  simp only [u32ToLeBytes, leU32]
  omega

/-- C6 counterexample: for a payload of `2 ^ 32` bytes the length prefix
wraps to zero, so decoding the encoding yields the empty payload, not the
original: the round-trip law fails for that byte sequence. -/
theorem C6_counterexample :
    read_message (write_size_prefixed_buffer (List.replicate (2 ^ 32) 0)) ≠
      some (List.replicate (2 ^ 32) 0) := by
  have hmod : (List.replicate (2 ^ 32) (0 : Nat)).length % 2 ^ 32 = 0 := by
    rw [List.length_replicate, Nat.mod_self]
  have henc : write_size_prefixed_buffer (List.replicate (2 ^ 32) 0) =
      0 :: 0 :: 0 :: 0 :: List.replicate (2 ^ 32) 0 := by
    rw [write_size_prefixed_buffer, hmod]
    rfl
  have hread : ∀ (l : List Nat), read_message (0 :: 0 :: 0 :: 0 :: l) = some [] := by
    intro l
    simp [read_message]
  rw [henc, hread]
  intro hcontra
  have hnil : [] = List.replicate (2 ^ 32) (0 : Nat) := Option.some.inj hcontra
  rw [eq_comm, List.replicate_eq_nil_iff] at hnil
  exact absurd hnil (by norm_num)

/-- C6 (amended): for every byte sequence of fewer than `2 ^ 32` bytes,
decoding the encoding yields the original payload. -/
theorem C6_roundtrip (p : List Nat) (h : p.length < 2 ^ 32) :
    read_message (write_size_prefixed_buffer p) = some p := by
  have hmod : p.length % 2 ^ 32 = p.length := Nat.mod_eq_of_lt h
  have henc : write_size_prefixed_buffer p =
      p.length % 256 :: p.length / 256 % 256 :: p.length / 65536 % 256 ::
        p.length / 16777216 % 256 :: p := by
    rw [write_size_prefixed_buffer, hmod]
    rfl
  rw [henc]
  simp only [read_message]
  have hlen : p.length % 256 + 256 * (p.length / 256 % 256) +
      65536 * (p.length / 65536 % 256) + 16777216 * (p.length / 16777216 % 256) =
      p.length := by omega
  rw [hlen, if_pos (Nat.le_refl _), List.take_length]

theorem C6_roundtrip_witness :
    ([1, 2, 3] : List Nat).length < 2 ^ 32 ∧
    read_message (write_size_prefixed_buffer [1, 2, 3]) = some [1, 2, 3] :=
  ⟨by decide, C6_roundtrip [1, 2, 3] (by decide)⟩

/-- C10: the length prefix written by the encoder is the payload length
reduced modulo `2 ^ 32`: for buffers of fewer than `2 ^ 32` bytes the
4-byte little-endian prefix equals the exact payload length, and for longer
buffers the prefix wraps and differs from the payload length. -/
theorem C10_length_prefix_wraps (p : List Nat) :
    (write_size_prefixed_buffer p).take 4 = u32ToLeBytes (p.length % 2 ^ 32) ∧
    leU32 ((write_size_prefixed_buffer p).take 4) = p.length % 2 ^ 32 ∧
    (p.length < 2 ^ 32 → leU32 ((write_size_prefixed_buffer p).take 4) = p.length) ∧
    (2 ^ 32 ≤ p.length → leU32 ((write_size_prefixed_buffer p).take 4) ≠ p.length) := by
  have htake : (write_size_prefixed_buffer p).take 4 = u32ToLeBytes (p.length % 2 ^ 32) := by
    rw [write_size_prefixed_buffer]
    rfl
  have hval : leU32 ((write_size_prefixed_buffer p).take 4) = p.length % 2 ^ 32 := by
    rw [htake]
    exact leU32_u32ToLeBytes (Nat.mod_lt _ (by norm_num))
  refine ⟨htake, hval, ?_, ?_⟩
  · intro h
    rw [hval, Nat.mod_eq_of_lt h]
  · intro h
    rw [hval]
    have := Nat.mod_lt p.length (show 0 < 2 ^ 32 by norm_num)
    omega

theorem C10_witness :
    leU32 ((write_size_prefixed_buffer [9]).take 4) = [9].length % 2 ^ 32 ∧
    (([9] : List Nat).length < 2 ^ 32 →
      leU32 ((write_size_prefixed_buffer [9]).take 4) = [9].length) ∧
    leU32 ((write_size_prefixed_buffer [9]).take 4) = 1 :=
  ⟨(C10_length_prefix_wraps [9]).2.1,
   (C10_length_prefix_wraps [9]).2.2.1,
   (C10_length_prefix_wraps [9]).2.2.1 (by decide)⟩

/-! ### Claim theorems: daemon core state machine -/

theorem run_cons (s : CoreState) (ev : CoreEvent) (evs : List CoreEvent) :
    run s (ev :: evs) = run (step s ev) evs := rfl

theorem run_deliver_all (t : Nat) (q : List Envelope) :
    ∀ (s : CoreState), s.phase = .active → s.outbound = q →
      run s (List.replicate q.length (CoreEvent.deliver t true)) =
        { s with outbound := [], delivered := s.delivered ++ q } := by
  induction q with
  | nil =>
    intro s hp hq
    cases s
    simp_all [run, List.replicate]
  | cons e rest ih =>
    intro s hp hq
    have hrep : List.replicate (e :: rest).length (CoreEvent.deliver t true) =
        CoreEvent.deliver t true :: List.replicate rest.length (CoreEvent.deliver t true) :=
      rfl
    have hstep : step s (.deliver t true) =
        { s with outbound := rest, delivered := s.delivered ++ [e] } := by
      simp [step, hp, hq]
    rw [hrep, run_cons, hstep,
      ih { s with outbound := rest, delivered := s.delivered ++ [e] } hp rfl]
    simp [List.append_assoc]

/-- C7: a daemon core in AwaitingConnection with no connection triple for at
least the idle window (10 minutes) logs a warning and transitions to
Terminating, requesting the hosting process to shut down; a triple accepted
in AwaitingConnection moves the core to Active instead of terminating; and
the idle timer is re-armed from zero each time AwaitingConnection begins,
so after re-entering it at time `t` an idle expiry before `t` plus the
window has no effect. -/
theorem C7_idle_shutdown :
    IDLE_TIMEOUT = 600 ∧
    (∀ (s : CoreState) (since t : Nat), s.phase = .awaitingConnection since →
      since + IDLE_TIMEOUT ≤ t →
      (step s (.idleElapsed t)).phase = .terminating true ∧
      (step s (.idleElapsed t)).warnedIdle = true) ∧
    (∀ (s : CoreState) (since t : Nat), s.phase = .awaitingConnection since →
      (step s (.tripleArrived t)).phase = .active) ∧
    (∀ (s : CoreState) (t t' : Nat), s.phase = .active → t' < t + IDLE_TIMEOUT →
      step (step s (.connectionError t)) (.idleElapsed t') =
        step s (.connectionError t)) := by
  refine ⟨rfl, ?_, ?_, ?_⟩
  · intro s since t hp ht
    simp [step, hp, ht]
  · intro s since t hp
    simp [step, hp]
  · intro s t t' hp hlt
    have hconn : step s (.connectionError t) = { s with phase := .awaitingConnection t } := by
      simp [step, hp]
    rw [hconn]
    simp only [step]
    rw [if_neg (by omega)]

theorem C7_witness :
    ((⟨.awaitingConnection 0, [], [], false⟩ : CoreState).phase = .awaitingConnection 0 ∧
      0 + IDLE_TIMEOUT ≤ 600 ∧
      (step ⟨.awaitingConnection 0, [], [], false⟩ (.idleElapsed 600)).phase =
        .terminating true ∧
      (step ⟨.awaitingConnection 0, [], [], false⟩ (.idleElapsed 600)).warnedIdle = true) ∧
    (step ⟨.awaitingConnection 0, [], [], false⟩ (.tripleArrived 5)).phase = .active ∧
    step (step ⟨.active, [], [], false⟩ (.connectionError 50)) (.idleElapsed 100) =
      step ⟨.active, [], [], false⟩ (.connectionError 50) :=
  ⟨⟨rfl, by decide,
    (C7_idle_shutdown.2.1 ⟨.awaitingConnection 0, [], [], false⟩ 0 600 rfl (by decide)).1,
    (C7_idle_shutdown.2.1 ⟨.awaitingConnection 0, [], [], false⟩ 0 600 rfl (by decide)).2⟩,
   C7_idle_shutdown.2.2.1 ⟨.awaitingConnection 0, [], [], false⟩ 0 5 rfl,
   C7_idle_shutdown.2.2.2 ⟨.active, [], [], false⟩ 50 100 rfl (by decide)⟩

/-- C8: an I/O error on any connection of the active triple returns the
daemon core to AwaitingConnection (never to Terminating) with the outbound
channel intact; envelopes enqueued while no triple is connected stay queued
(no delivery step fires in AwaitingConnection); and once a new triple
attaches, delivering the queue writes every pending envelope out in the
order it was enqueued. -/
theorem C8_reconnect_resumes_delivery :
    (∀ (s : CoreState) (t : Nat), s.phase = .active →
      (step s (.connectionError t)).phase = .awaitingConnection t ∧
      (step s (.connectionError t)).outbound = s.outbound ∧
      ∀ b, (step s (.connectionError t)).phase ≠ .terminating b) ∧
    (∀ (s : CoreState) (since : Nat) (e : Envelope), s.phase = .awaitingConnection since →
      (step s (.enqueue e)).outbound = s.outbound ++ [e] ∧
      (step s (.enqueue e)).phase = s.phase ∧
      (∀ (t : Nat) (ok : Bool), step s (.deliver t ok) = s)) ∧
    (∀ (s : CoreState) (since t t' : Nat), s.phase = .awaitingConnection since →
      run (step s (.tripleArrived t))
          (List.replicate s.outbound.length (CoreEvent.deliver t' true)) =
        { s with phase := .active, outbound := [], delivered := s.delivered ++ s.outbound }) := by
  refine ⟨?_, ?_, ?_⟩
  · intro s t hp
    refine ⟨by simp [step, hp], by simp [step, hp], ?_⟩
    intro b
    simp [step, hp]
  · intro s since e hp
    refine ⟨by simp [step], by simp [step], ?_⟩
    intro t ok
    cases hq : s.outbound with
    | nil => simp [step, hp, hq]
    | cons x xs => simp [step, hp, hq]
  · intro s since t t' hp
    have harr : step s (.tripleArrived t) = { s with phase := .active } := by
      simp [step, hp]
    rw [harr, run_deliver_all t' s.outbound { s with phase := .active } rfl rfl]

theorem C8_witness :
    ((step ⟨.active, [3, 4], [], false⟩ (.connectionError 7)).phase =
        .awaitingConnection 7 ∧
      (step ⟨.active, [3, 4], [], false⟩ (.connectionError 7)).outbound = [3, 4] ∧
      ∀ b, (step ⟨.active, [3, 4], [], false⟩ (.connectionError 7)).phase ≠
        .terminating b) ∧
    ((step ⟨.awaitingConnection 7, [3, 4], [], false⟩ (.enqueue 5)).outbound =
        [3, 4] ++ [5] ∧
      (∀ (t : Nat) (ok : Bool),
        step ⟨.awaitingConnection 7, [3, 4], [], false⟩ (.deliver t ok) =
          ⟨.awaitingConnection 7, [3, 4], [], false⟩)) ∧
    run (step ⟨.awaitingConnection 7, [3, 4, 5], [], false⟩ (.tripleArrived 8))
        (List.replicate 3 (CoreEvent.deliver 9 true)) =
      ⟨.active, [], [3, 4, 5], false⟩ :=
  ⟨C8_reconnect_resumes_delivery.1 ⟨.active, [3, 4], [], false⟩ 7 rfl,
   ⟨(C8_reconnect_resumes_delivery.2.1 ⟨.awaitingConnection 7, [3, 4], [], false⟩ 7 5 rfl).1,
    (C8_reconnect_resumes_delivery.2.1 ⟨.awaitingConnection 7, [3, 4], [], false⟩ 7 5 rfl).2.2⟩,
   C8_reconnect_resumes_delivery.2.2 ⟨.awaitingConnection 7, [3, 4, 5], [], false⟩ 7 8 9 rfl⟩

end ZedRemote
